import Mathlib

/-!
Verification development for the blackjack program `purruyura.py`:
a shallow embedding of its card / deck / player model and of the
command handlers of `_BlackJackGame`, followed by theorems about the
embedded operations.

Conventions of the embedding:
* Python integers are modelled as `Int`; Python lists as `List`,
  with `list.pop()` (pop from the end) modelled by `List.getLast?` /
  `List.dropLast`.
* An operation that would raise in Python (popping from an empty
  list) returns `none`.
* `random.shuffle` is modelled by an explicit parameter
  `sh : List Card → List Card`; theorems that depend on shuffling
  assume `∀ l, (sh l).Perm l`.
* Console output is ignored except in `doNo`, where the printed
  lines are part of the verified behaviour.
-/

namespace Purruyura

/-- Embeds `Card`: `suit`, `rank` and the derived `value` are stored
fields, exactly as the Python constructor stores them. -/
structure Card where
  suit : String
  rank : Int
  value : Int
deriving DecidableEq, Repr

/-- Embeds `Card.__init__`: `value = rank` when `1 < rank < 11`,
else `value = 10`. -/
def mkCard (suit : String) (rank : Int) : Card :=
  ⟨suit, rank, if 1 < rank ∧ rank < 11 then rank else 10⟩

/-- Embeds `CardDeck`: the draw pile `deck` (top = end of the list)
and the `discard` pile. -/
structure CardDeck where
  deck : List Card
  discard : List Card
deriving DecidableEq, Repr

/-- `CardDeck.__init__`: empty deck and discard list. -/
def emptyDeck : CardDeck := ⟨[], []⟩

/-- Embeds `CardDeck._append_suit_to_deck`: appends ranks 1..13 of the
given suit (`for i in range(1,14): self.deck.append(Card(suit, i))`). -/
def appendSuitToDeck (cd : CardDeck) (suit : String) : CardDeck :=
  { cd with deck := cd.deck ++ (List.range 13).map (fun i => mkCard suit ((i : Int) + 1)) }

/-- Embeds `CardDeck.create_unshuffled_deck`: Diamonds, Spades,
Hearts, Clubs, in that order. -/
def createUnshuffledDeck (cd : CardDeck) : CardDeck :=
  appendSuitToDeck
    (appendSuitToDeck (appendSuitToDeck (appendSuitToDeck cd "Diamonds") "Spades") "Hearts")
    "Clubs"

/-- Embeds `CardDeck.shuffle_deck`, with the random permutation
supplied as the parameter `sh`. -/
def shuffleDeck (sh : List Card → List Card) (cd : CardDeck) : CardDeck :=
  { cd with deck := sh cd.deck }

/-- Embeds `CardDeck.deal_card` (`return self.deck.pop()`): pops the
card at the end of the draw pile; `none` models the `IndexError`
Python raises when popping an empty list. -/
def dealCard (cd : CardDeck) : Option (Card × CardDeck) :=
  match cd.deck.getLast? with
  | none => none
  | some c => some (c, { cd with deck := cd.deck.dropLast })

/-- Embeds `CardDeck.shuffle_in_discards`: extends the deck with the
discards, empties the discard list, then shuffles. -/
def shuffleInDiscards (sh : List Card → List Card) (cd : CardDeck) : CardDeck :=
  shuffleDeck sh { deck := cd.deck ++ cd.discard, discard := [] }

/-- Embeds `CardDeck.__len__`: the length of the draw pile. -/
def lenDeck (cd : CardDeck) : Nat := cd.deck.length

/-- Embeds `Player.total_hand`: sums the card values; if the sum
exceeds 21, a second loop over the hand subtracts 9 for every card of
rank 1, unconditionally. -/
def totalHand (hand : List Card) : Int :=
  let result := hand.foldl (fun acc c => acc + c.value) 0
  if result > 21 then
    hand.foldl (fun acc c => if c.rank = 1 then acc - 9 else acc) result
  else result

/-- Raw sum of the card values of a hand (the value of `result` after
the first loop of `Player.total_hand`). -/
def rawTotal (hand : List Card) : Int :=
  hand.foldl (fun acc c => acc + c.value) 0

/-- Number of aces (rank-1 cards) in a hand. -/
def aceCount (hand : List Card) : Nat :=
  (hand.filter (fun c => c.rank = 1)).length

/-- Embeds `Player.hit`: if the draw pile is non-empty deal one card
into the hand, otherwise first shuffle in the discards and then deal.
A hand is passed explicitly, the deck being shared between players. -/
def hit (sh : List Card → List Card) (cd : CardDeck) (hand : List Card) :
    Option (CardDeck × List Card) :=
  if 0 < lenDeck cd then
    match dealCard cd with
    | none => none
    | some (c, cd') => some (cd', hand ++ [c])
  else
    match dealCard (shuffleInDiscards sh cd) with
    | none => none
    | some (c, cd') => some (cd', hand ++ [c])

/-- Embeds `Player.discard`: the hand is appended to the deck's
discard list and the hand becomes empty. -/
def discardHand (cd : CardDeck) (hand : List Card) : CardDeck × List Card :=
  ({ cd with discard := cd.discard ++ hand }, [])

/-- State of `_BlackJackGame`: the shared deck, the dealer's hand and
score (`p1`), the player's hand and score (`p2`), and the `playing`
and `quitting` flags. -/
structure GameState where
  cd : CardDeck
  h1 : List Card
  h2 : List Card
  s1 : Int
  s2 : Int
  playing : Bool
  quitting : Bool
deriving DecidableEq, Repr

/-- The dealer-draw loop of `_BlackJackGame.do_pass`
(`while self.p1.total_hand() < 18: self.p1.hand.append(self.cd.deal_card())`):
draws straight from the deck, never recycling the discards.  The
`fuel` argument only bounds the iteration count; callers pass
`deck length + 1`, which the loop can never exhaust, because every
iteration removes one card from the draw pile and an iteration that
finds the pile empty stops with `none` (Python's `IndexError`). -/
def dealerDraw : Nat → CardDeck → List Card → Option (CardDeck × List Card)
  | 0, _, _ => none
  | fuel + 1, cd, h =>
    if totalHand h < 18 then
      match dealCard cd with
      | none => none
      | some (c, cd') => dealerDraw fuel cd' (h ++ [c])
    else some (cd, h)

/-- Embeds `_BlackJackGame.do_pass`: clear `quitting`, let the dealer
draw to 18, then resolve the round and clear `playing`.  Console
output is dropped. -/
def doPass (g : GameState) : Option GameState :=
  let g0 := { g with quitting := false }
  match dealerDraw (lenDeck g0.cd + 1) g0.cd g0.h1 with
  | none => none
  | some (cd', h1') =>
    if totalHand h1' > 21 then
      if totalHand g0.h2 > 21 then
        some { g0 with cd := cd', h1 := h1', playing := false }
      else
        some { g0 with cd := cd', h1 := h1', s2 := g0.s2 + 1, playing := false }
    else
      if totalHand h1' ≥ totalHand g0.h2 then
        some { g0 with cd := cd', h1 := h1', s1 := g0.s1 + 1, playing := false }
      else if totalHand g0.h2 ≤ 21 then
        some { g0 with cd := cd', h1 := h1', s2 := g0.s2 + 1, playing := false }
      else
        some { g0 with cd := cd', h1 := h1', s1 := g0.s1 + 1, playing := false }

/-- Embeds `_BlackJackGame.do_hit`: clear `quitting`; while playing,
the player hits; on a total over 21 the dealer scores and the round
ends.  Outside a round nothing changes. -/
def doHit (sh : List Card → List Card) (g : GameState) : Option GameState :=
  let g0 := { g with quitting := false }
  if g0.playing then
    match hit sh g0.cd g0.h2 with
    | none => none
    | some (cd', h2') =>
      if totalHand h2' ≤ 21 then
        some { g0 with cd := cd', h2 := h2' }
      else
        some { g0 with cd := cd', h2 := h2', s1 := g0.s1 + 1, playing := false }
  else some g0

/-- Embeds `_BlackJackGame.start_game`: dealer hit, player hit, dealer
hit, player hit, then `playing := true`, `quitting := false`. -/
def startGame (sh : List Card → List Card) (g : GameState) : Option GameState :=
  match hit sh g.cd g.h1 with
  | none => none
  | some (cd1, h1a) =>
    match hit sh cd1 g.h2 with
    | none => none
    | some (cd2, h2a) =>
      match hit sh cd2 h1a with
      | none => none
      | some (cd3, h1b) =>
        match hit sh cd3 h2a with
        | none => none
        | some (cd4, h2b) =>
          some { g with cd := cd4, h1 := h1b, h2 := h2b, playing := true, quitting := false }

/-- Embeds `_BlackJackGame.do_yes`: clear `quitting`; if no round is in
progress, discard both hands and start a fresh round; otherwise only
print a rejection (dropped here). -/
def doYes (sh : List Card → List Card) (g : GameState) : Option GameState :=
  let g0 := { g with quitting := false }
  if g0.playing then some g0
  else
    let d1 := discardHand g0.cd g0.h1
    let d2 := discardHand d1.1 g0.h2
    startGame sh { g0 with cd := d2.1, h1 := [], h2 := [], playing := true }

/-- Embeds `_BlackJackGame.do_no`.  Result: the next state, whether the
session terminates (Python `return True`), and the printed lines. -/
def doNo (g : GameState) : GameState × Bool × List String :=
  if !g.playing then
    (g, true, ["Dealer score: ", toString g.s1, "Player score: ", toString g.s2])
  else if g.quitting then
    (g, true, ["Dealer score: ", toString g.s1, "Player score: ", toString g.s2])
  else
    ({ g with quitting := true }, false, ["¿Que? Just one hand"])

/-- The scenario of the spec's round-trip property: repeatedly deal
the top card and move it to the discard pile (as the `deal_card`
doctest does with `cd.discard.append(cd.deal_card())`) until the draw
pile is empty. -/
def dealAllToDiscard (cd : CardDeck) : CardDeck :=
  match hq : cd.deck with
  | [] => cd
  | c0 :: rest =>
    dealAllToDiscard
      { deck := (c0 :: rest).dropLast,
        discard := cd.discard ++ [(c0 :: rest).getLast (by simp)] }
termination_by cd.deck.length
decreasing_by simp [hq]

/-- The deck order stated by the spec: all 13 ranks of one suit,
ascending from 1 to 13, as (suit, rank) pairs. -/
def suitRanks (s : String) : List (String × Int) :=
  (List.range 13).map (fun i => (s, (i : Int) + 1))

/-- The full deck order stated by the spec: Diamonds, then Spades,
then Hearts, then Clubs, each suit ascending rank 1..13.  Written from
the spec's words, to be compared with `createUnshuffledDeck`. -/
def specDeckOrder : List (String × Int) :=
  suitRanks "Diamonds" ++ suitRanks "Spades" ++ suitRanks "Hearts" ++ suitRanks "Clubs"

/- Helper lemmas. -/

theorem foldl_value_eq (hand : List Card) : ∀ init : Int,
    hand.foldl (fun acc c => acc + c.value) init = init + rawTotal hand := by
  induction hand with
  | nil => intro init; simp [rawTotal]
  | cons c t ih =>
      intro init
      simp only [rawTotal, List.foldl_cons] at *
      rw [ih, ih (0 + c.value)]
      ring

theorem foldl_ace_sub (hand : List Card) : ∀ init : Int,
    hand.foldl (fun acc c => if c.rank = 1 then acc - 9 else acc) init
      = init - 9 * (aceCount hand : Int) := by
  induction hand with
  | nil => intro init; simp [aceCount]
  | cons c t ih =>
      intro init
      by_cases hc : c.rank = 1
      · simp only [List.foldl_cons, if_pos hc, aceCount, List.filter_cons,
          decide_eq_true hc, if_true, List.length_cons, ih]
        push_cast
        ring
      · simp only [List.foldl_cons, if_neg hc, aceCount, List.filter_cons, ih]
        have : (decide (c.rank = 1)) = false := decide_eq_false hc
        simp [this, aceCount]

theorem totalHand_closed (hand : List Card) :
    totalHand hand =
      if 21 < rawTotal hand then rawTotal hand - 9 * (aceCount hand : Int)
      else rawTotal hand := by
  unfold totalHand
  by_cases h : 21 < rawTotal hand
  · simp only [rawTotal] at h
    simp [h, foldl_ace_sub, rawTotal]
  · simp only [rawTotal] at h
    simp [h, rawTotal]

theorem dealCard_none_iff (cd : CardDeck) : dealCard cd = none ↔ cd.deck = [] := by
  unfold dealCard
  rcases hq : cd.deck.getLast? with _ | c
  · simp [List.getLast?_eq_none_iff.mp hq]
  · have hne : cd.deck ≠ [] := by
      intro hnil
      rw [hnil] at hq
      simp at hq
    simp [hne]

theorem dealCard_some (cd : CardDeck) (c : Card) (cd' : CardDeck)
    (h : dealCard cd = some (c, cd')) :
    cd.deck = cd'.deck ++ [c] ∧ cd'.discard = cd.discard := by
  unfold dealCard at h
  rcases hq : cd.deck.getLast? with _ | c0
  · rw [hq] at h
    simp at h
  · rw [hq] at h
    simp only [Option.some.injEq, Prod.mk.injEq] at h
    obtain ⟨hc, hcd⟩ := h
    subst hc
    subst hcd
    exact ⟨(List.dropLast_append_getLast? c0 hq).symm, rfl⟩

theorem dealCard_some_perm (cd : CardDeck) (c : Card) (cd' : CardDeck)
    (h : dealCard cd = some (c, cd')) :
    (cd'.deck ++ cd'.discard ++ [c]).Perm (cd.deck ++ cd.discard) := by
  obtain ⟨hdeck, hdis⟩ := dealCard_some cd c cd' h
  rw [hdeck, hdis, ← Multiset.coe_eq_coe]
  simp only [← Multiset.coe_add]
  abel

theorem hit_nonempty (sh : List Card → List Card) (cd : CardDeck) (hand : List Card)
    (hne : cd.deck ≠ []) :
    hit sh cd hand =
      some ({ deck := cd.deck.dropLast, discard := cd.discard },
        hand ++ [cd.deck.getLast hne]) := by
  have hlen : 0 < lenDeck cd := by
    unfold lenDeck
    rcases hd : cd.deck with _ | ⟨a, t⟩
    · exact absurd hd hne
    · simp
  unfold hit dealCard
  rw [if_pos hlen, List.getLast?_eq_getLast_of_ne_nil hne]

theorem hit_empty_recycles (sh : List Card → List Card) (cd : CardDeck) (hand : List Card)
    (he : cd.deck = []) :
    hit sh cd hand =
      match dealCard { deck := sh cd.discard, discard := [] } with
      | none => none
      | some (c, cd') => some (cd', hand ++ [c]) := by
  have hlen : ¬ 0 < lenDeck cd := by
    unfold lenDeck
    rw [he]
    simp
  unfold hit
  rw [if_neg hlen]
  unfold shuffleInDiscards shuffleDeck
  rw [he]
  rfl

theorem hit_some_of_ne (sh : List Card → List Card) (hsh : ∀ l, (sh l).Perm l)
    (cd : CardDeck) (hand : List Card) (hne : cd.deck ≠ [] ∨ cd.discard ≠ []) :
    hit sh cd hand ≠ none := by
  rcases hd : cd.deck with _ | ⟨a, t⟩
  · have hdis : cd.discard ≠ [] := by
      rcases hne with h | h
      · exact absurd hd h
      · exact h
    rw [hit_empty_recycles sh cd hand hd]
    rcases hq : dealCard { deck := sh cd.discard, discard := [] } with _ | ⟨c, cd'⟩
    · have : sh cd.discard = [] := dealCard_none_iff _ |>.mp hq
      have hlen := (hsh cd.discard).length_eq
      rw [this] at hlen
      rcases hdd : cd.discard with _ | ⟨b, u⟩
      · exact absurd hdd hdis
      · rw [hdd] at hlen
        simp at hlen
    · simp
  · have : cd.deck ≠ [] := by rw [hd]; simp
    rw [hit_nonempty sh cd hand this]
    simp

theorem hit_some_perm (sh : List Card → List Card) (hsh : ∀ l, (sh l).Perm l)
    (cd : CardDeck) (hand : List Card) (cd' : CardDeck) (hand' : List Card)
    (h : hit sh cd hand = some (cd', hand')) :
    (cd'.deck ++ cd'.discard ++ hand').Perm (cd.deck ++ cd.discard ++ hand) := by
  by_cases hd : cd.deck = []
  · rw [hit_empty_recycles sh cd hand hd] at h
    rcases hq : dealCard { deck := sh cd.discard, discard := [] } with _ | ⟨c, cdm⟩
    · rw [hq] at h
      simp at h
    · rw [hq] at h
      simp only [Option.some.injEq, Prod.mk.injEq] at h
      obtain ⟨hcd, hh⟩ := h
      subst hcd
      subst hh
      obtain ⟨hdeck, hdis⟩ := dealCard_some _ _ _ hq
      dsimp only at hdeck hdis
      have hperm := hsh cd.discard
      rw [hdeck] at hperm
      rw [hd, hdis, ← Multiset.coe_eq_coe]
      rw [← Multiset.coe_eq_coe, ← Multiset.coe_add] at hperm
      simp only [← Multiset.coe_add]
      rw [← hperm]
      abel
  · rw [hit_nonempty sh cd hand hd] at h
    simp only [Option.some.injEq, Prod.mk.injEq] at h
    obtain ⟨hcd, hh⟩ := h
    subst hcd
    subst hh
    have key : cd.deck.dropLast ++ [cd.deck.getLast hd] = cd.deck :=
      List.dropLast_append_getLast hd
    have hm : (cd.deck.dropLast : Multiset Card) + ([cd.deck.getLast hd] : List Card)
        = (cd.deck : Multiset Card) := by
      rw [Multiset.coe_add, key]
    rw [← Multiset.coe_eq_coe]
    simp only [← Multiset.coe_add]
    rw [← hm]
    abel

theorem dealerDraw_some (fuel : Nat) :
    ∀ (cd : CardDeck) (h : List Card) (cd' : CardDeck) (h' : List Card),
      dealerDraw fuel cd h = some (cd', h') →
      18 ≤ totalHand h' ∧ cd'.discard = cd.discard ∧
        (cd'.deck ++ h').Perm (cd.deck ++ h) := by
  induction fuel with
  | zero =>
      intro cd h cd' h' hd
      simp [dealerDraw] at hd
  | succ n ih =>
      intro cd h cd' h' hd
      unfold dealerDraw at hd
      by_cases ht : totalHand h < 18
      · rw [if_pos ht] at hd
        rcases hq : dealCard cd with _ | ⟨c, cdm⟩
        · rw [hq] at hd
          simp at hd
        · rw [hq] at hd
          obtain ⟨h18, hdis, hperm⟩ := ih cdm (h ++ [c]) cd' h' hd
          obtain ⟨hdeck, hdisc⟩ := dealCard_some cd c cdm hq
          refine ⟨h18, by rw [hdis, hdisc], ?_⟩
          rw [← Multiset.coe_eq_coe] at hperm ⊢
          rw [hdeck]
          simp only [← Multiset.coe_add] at hperm ⊢
          rw [hperm]
          abel
      · rw [if_neg ht] at hd
        simp only [Option.some.injEq, Prod.mk.injEq] at hd
        obtain ⟨hcd, hh⟩ := hd
        subst hcd
        subst hh
        exact ⟨by omega, rfl, List.Perm.refl _⟩

theorem dealAllToDiscard_spec (n : Nat) :
    ∀ cd : CardDeck, cd.deck.length ≤ n →
      (dealAllToDiscard cd).deck = [] ∧
        ((dealAllToDiscard cd).discard).Perm (cd.discard ++ cd.deck) := by
  induction n with
  | zero =>
      intro cd hlen
      have hnil : cd.deck = [] := by
        rcases hq : cd.deck with _ | ⟨a, t⟩
        · rfl
        · rw [hq] at hlen
          simp at hlen
      unfold dealAllToDiscard
      rcases hq : cd.deck with _ | ⟨a, t⟩
      · simp [hnil]
      · rw [hq] at hnil
        simp at hnil
  | succ n ih =>
      intro cd hlen
      unfold dealAllToDiscard
      rcases hq : cd.deck with _ | ⟨a, t⟩
      · simp [hq]
      · have hlast : (a :: t).dropLast ++ [(a :: t).getLast (by simp)] = a :: t :=
          List.dropLast_append_getLast (by simp)
        have hlen' : ((a :: t).dropLast).length ≤ n := by
          rw [List.length_dropLast]
          rw [hq] at hlen
          simp only [List.length_cons] at hlen ⊢
          omega
        obtain ⟨hdeck, hperm⟩ :=
          ih { deck := (a :: t).dropLast,
               discard := cd.discard ++ [(a :: t).getLast (by simp)] } hlen'
        refine ⟨hdeck, ?_⟩
        refine hperm.trans ?_
        rw [← Multiset.coe_eq_coe]
        simp only [← Multiset.coe_add]
        have hm : ((a :: t).dropLast : Multiset Card) + ([(a :: t).getLast (by simp)] : List Card)
            = ((a :: t : List Card) : Multiset Card) := by
          rw [Multiset.coe_add, hlast]
        rw [← hm]
        abel

theorem startGame_scores (sh : List Card → List Card) (g g' : GameState)
    (h : startGame sh g = some g') : g'.s1 = g.s1 ∧ g'.s2 = g.s2 := by
  unfold startGame at h
  rcases h1 : hit sh g.cd g.h1 with _ | ⟨cd1, h1a⟩
  · rw [h1] at h; simp at h
  · rw [h1] at h
    dsimp only at h
    rcases h2 : hit sh cd1 g.h2 with _ | ⟨cd2, h2a⟩
    · rw [h2] at h; simp at h
    · rw [h2] at h
      dsimp only at h
      rcases h3 : hit sh cd2 h1a with _ | ⟨cd3, h1b⟩
      · rw [h3] at h; simp at h
      · rw [h3] at h
        dsimp only at h
        rcases h4 : hit sh cd3 h2a with _ | ⟨cd4, h2b⟩
        · rw [h4] at h; simp at h
        · rw [h4] at h
          dsimp only at h
          simp only [Option.some.injEq] at h
          subst h
          exact ⟨rfl, rfl⟩

/-- The full behaviour of `doPass` on success, shared by the theorems
about round resolution and score monotonicity. -/
theorem doPass_some_spec (g g' : GameState) (h : doPass g = some g') :
    g'.playing = false ∧ g'.quitting = false ∧ g'.h2 = g.h2 ∧
      g'.cd.discard = g.cd.discard ∧ 18 ≤ totalHand g'.h1 ∧
      (g'.cd.deck ++ g'.h1).Perm (g.cd.deck ++ g.h1) ∧
      (21 < totalHand g'.h1 → 21 < totalHand g.h2 →
        g'.s1 = g.s1 ∧ g'.s2 = g.s2) ∧
      (21 < totalHand g'.h1 → totalHand g.h2 ≤ 21 →
        g'.s1 = g.s1 ∧ g'.s2 = g.s2 + 1) ∧
      (totalHand g'.h1 ≤ 21 → totalHand g.h2 ≤ totalHand g'.h1 →
        g'.s1 = g.s1 + 1 ∧ g'.s2 = g.s2) ∧
      (totalHand g'.h1 ≤ 21 → totalHand g'.h1 < totalHand g.h2 → totalHand g.h2 ≤ 21 →
        g'.s1 = g.s1 ∧ g'.s2 = g.s2 + 1) ∧
      (totalHand g'.h1 ≤ 21 → totalHand g'.h1 < totalHand g.h2 → 21 < totalHand g.h2 →
        g'.s1 = g.s1 + 1 ∧ g'.s2 = g.s2) := by
  unfold doPass at h
  dsimp only at h
  rcases hq : dealerDraw (lenDeck g.cd + 1) g.cd g.h1 with _ | ⟨cd', h1'⟩
  · rw [hq] at h
    simp at h
  · rw [hq] at h
    dsimp only at h
    obtain ⟨h18, hdis, hperm⟩ := dealerDraw_some _ _ _ _ _ hq
    split_ifs at h with hd1 hd2 hd3 hd4 <;>
      · simp only [Option.some.injEq] at h
        subst h
        dsimp only
        refine ⟨rfl, rfl, rfl, hdis, h18, hperm, ?_, ?_, ?_, ?_, ?_⟩ <;>
          · intros
            constructor <;> omega

/-- C1: `total_hand` returns the raw sum of card values when that sum
is at most 21, and otherwise the raw sum minus 9 for every rank-1 card
(every Ace) in the hand, the subtraction applied to all Aces
unconditionally; in particular the hand [Ace, Ace, nine] totals 11. -/
theorem total_hand_soft_ace_spec :
    (∀ hand : List Card,
        totalHand hand =
          if 21 < rawTotal hand then rawTotal hand - 9 * (aceCount hand : Int)
          else rawTotal hand) ∧
    totalHand [mkCard "Hearts" 1, mkCard "Spades" 1, mkCard "Clubs" 9] = 11 :=
  ⟨totalHand_closed, by decide⟩

/-- C9: for every suit and every rank `r` in [1,13], the constructed
card's value is `r` when `2 ≤ r ≤ 10` and 10 when `r` is 1, 11, 12 or
13; in this functional embedding the value is fixed at construction. -/
theorem card_value_spec (s : String) (r : Int) (h1 : 1 ≤ r) (h13 : r ≤ 13) :
    (mkCard s r).value = if 2 ≤ r ∧ r ≤ 10 then r else 10 := by
  unfold mkCard
  dsimp only
  split_ifs <;> omega

/-- Witness for C9 at suit "Spades", rank 1 (an Ace). -/
theorem card_value_spec_witness :
    (mkCard "Spades" 1).value = if 2 ≤ (1 : Int) ∧ (1 : Int) ≤ 10 then 1 else 10 :=
  card_value_spec "Spades" 1 (by decide) (by decide)

/-- C8: starting from an empty deck, `create_unshuffled_deck` yields a
draw pile of exactly 52 cards, all 52 (suit, rank) pairs distinct,
ordered as 13 ascending ranks of Diamonds, then Spades, then Hearts,
then Clubs. -/
theorem create_unshuffled_deck_spec :
    (createUnshuffledDeck emptyDeck).deck.length = 52 ∧
    ((createUnshuffledDeck emptyDeck).deck.map (fun c => (c.suit, c.rank))).Nodup ∧
    (createUnshuffledDeck emptyDeck).deck.map (fun c => (c.suit, c.rank)) = specDeckOrder := by
  refine ⟨by decide, by decide, by decide⟩

/-- C2: when `pass`/`stand` completes, the dealer has drawn straight
from the draw pile (discard pile untouched) until the dealer total is
at least 18, exactly one of the five resolution rules has updated the
scores, and `playing` is false afterwards. -/
theorem do_pass_resolution (g g' : GameState) (h : doPass g = some g') :
    g'.playing = false ∧ g'.quitting = false ∧ g'.h2 = g.h2 ∧
      g'.cd.discard = g.cd.discard ∧ 18 ≤ totalHand g'.h1 ∧
      (g'.cd.deck ++ g'.h1).Perm (g.cd.deck ++ g.h1) ∧
      (21 < totalHand g'.h1 → 21 < totalHand g.h2 →
        g'.s1 = g.s1 ∧ g'.s2 = g.s2) ∧
      (21 < totalHand g'.h1 → totalHand g.h2 ≤ 21 →
        g'.s1 = g.s1 ∧ g'.s2 = g.s2 + 1) ∧
      (totalHand g'.h1 ≤ 21 → totalHand g.h2 ≤ totalHand g'.h1 →
        g'.s1 = g.s1 + 1 ∧ g'.s2 = g.s2) ∧
      (totalHand g'.h1 ≤ 21 → totalHand g'.h1 < totalHand g.h2 → totalHand g.h2 ≤ 21 →
        g'.s1 = g.s1 ∧ g'.s2 = g.s2 + 1) ∧
      (totalHand g'.h1 ≤ 21 → totalHand g'.h1 < totalHand g.h2 → 21 < totalHand g.h2 →
        g'.s1 = g.s1 + 1 ∧ g'.s2 = g.s2) :=
  doPass_some_spec g g' h

/-- Witness for C2: dealer holds King and Queen of Clubs (total 20,
no draw needed), player holds the 5 of Hearts; the dealer wins. -/
theorem do_pass_resolution_witness :
    (⟨⟨[], []⟩, [mkCard "Clubs" 13, mkCard "Clubs" 12], [mkCard "Hearts" 5],
        1, 0, false, false⟩ : GameState).playing = false ∧
    (⟨⟨[], []⟩, [mkCard "Clubs" 13, mkCard "Clubs" 12], [mkCard "Hearts" 5],
        1, 0, false, false⟩ : GameState).s1 =
      (⟨⟨[], []⟩, [mkCard "Clubs" 13, mkCard "Clubs" 12], [mkCard "Hearts" 5],
        0, 0, true, false⟩ : GameState).s1 + 1 := by
  have T := do_pass_resolution
    ⟨⟨[], []⟩, [mkCard "Clubs" 13, mkCard "Clubs" 12], [mkCard "Hearts" 5], 0, 0, true, false⟩
    ⟨⟨[], []⟩, [mkCard "Clubs" 13, mkCard "Clubs" 12], [mkCard "Hearts" 5], 1, 0, false, false⟩
    (by decide)
  exact ⟨T.1, (T.2.2.2.2.2.2.2.2.1 (by decide) (by decide)).1⟩

/-- C3 (amended): whenever the draw and discard piles are not both
empty, `Player.hit` never pops from an empty draw pile (it recycles
the discards first); when both are empty its deal fails just as the
dealer's does.  The dealer's direct draws in `do_pass` never recycle:
with an empty draw pile and a dealer total below 18 the draw raises
(returns `none`) no matter what the discard pile holds. -/
theorem hit_guard_vs_dealer_draw :
    (∀ sh : List Card → List Card, (∀ l, (sh l).Perm l) →
        ∀ (cd : CardDeck) (hand : List Card), cd.deck ≠ [] ∨ cd.discard ≠ [] →
          hit sh cd hand ≠ none) ∧
    (∀ g : GameState, g.cd.deck = [] → totalHand g.h1 < 18 → doPass g = none) := by
  constructor
  · intro sh hsh cd hand hne
    exact hit_some_of_ne sh hsh cd hand hne
  · intro g hdeck ht
    unfold doPass
    dsimp only
    have hlen : lenDeck g.cd = 0 := by
      unfold lenDeck
      rw [hdeck]
      rfl
    have hdc : dealCard g.cd = none := (dealCard_none_iff g.cd).mpr hdeck
    rw [hlen]
    simp [dealerDraw, ht, hdc]

/-- Counterexample to C3 as stated: at the deck state with empty draw
and empty discard piles, `hit` recycles vacuously and then pops the
empty draw pile, the empty-sequence pop error (`none`). -/
theorem hit_pops_empty_when_all_empty : hit id emptyDeck [] = none := by decide

/-- Witness for C3 (amended): `hit` succeeds with one card in the draw
pile, and `do_pass` fails with an empty draw pile, a dealer total of 0
and a non-empty discard pile. -/
theorem hit_guard_vs_dealer_draw_witness :
    hit id ⟨[mkCard "Hearts" 2], []⟩ [] ≠ none ∧
    doPass ⟨⟨[], [mkCard "Hearts" 2]⟩, [], [], 0, 0, true, false⟩ = none := by
  have T := hit_guard_vs_dealer_draw
  exact ⟨T.1 id (fun l => List.Perm.refl l) ⟨[mkCard "Hearts" 2], []⟩ []
      (Or.inl (by decide)),
    T.2 ⟨⟨[], [mkCard "Hearts" 2]⟩, [], [], 0, 0, true, false⟩ rfl (by decide)⟩

/-- C4: dealing a card, hitting, discarding a hand and recycling the
discards each permute the combined card collection (hands, draw pile,
discard pile), so the total card count never changes; a session starts
with the 52 cards of `create_unshuffled_deck`. -/
theorem card_conservation (sh : List Card → List Card) (hsh : ∀ l, (sh l).Perm l) :
    (createUnshuffledDeck emptyDeck).deck.length = 52 ∧
    (∀ (cd : CardDeck) (c : Card) (cd' : CardDeck), dealCard cd = some (c, cd') →
        (cd'.deck ++ cd'.discard ++ [c]).Perm (cd.deck ++ cd.discard)) ∧
    (∀ (cd : CardDeck) (hand : List Card) (cd' : CardDeck) (hand' : List Card),
        hit sh cd hand = some (cd', hand') →
        (cd'.deck ++ cd'.discard ++ hand').Perm (cd.deck ++ cd.discard ++ hand)) ∧
    (∀ (cd : CardDeck) (hand : List Card),
        ((discardHand cd hand).1.deck ++ (discardHand cd hand).1.discard ++
            (discardHand cd hand).2).Perm (cd.deck ++ cd.discard ++ hand)) ∧
    (∀ cd : CardDeck,
        ((shuffleInDiscards sh cd).deck ++ (shuffleInDiscards sh cd).discard).Perm
          (cd.deck ++ cd.discard)) := by
  refine ⟨by decide,
    fun cd c cd' h => dealCard_some_perm cd c cd' h,
    fun cd hand cd' hand' h => hit_some_perm sh hsh cd hand cd' hand' h,
    ?_, ?_⟩
  · intro cd hand
    unfold discardHand
    dsimp only
    simp only [List.append_nil]
    rw [← Multiset.coe_eq_coe]
    simp only [← Multiset.coe_add]
    abel
  · intro cd
    unfold shuffleInDiscards shuffleDeck
    dsimp only
    simp only [List.append_nil]
    exact hsh _

/-- Witness for C4: each conservation conjunct at a one- or two-card
deck state, with the identity shuffle. -/
theorem card_conservation_witness :
    (([] : List Card) ++ [mkCard "Spades" 3] ++ [mkCard "Hearts" 2]).Perm
        ([mkCard "Hearts" 2] ++ [mkCard "Spades" 3]) ∧
    (([] : List Card) ++ [] ++ [mkCard "Hearts" 2]).Perm ([mkCard "Hearts" 2] ++ [] ++ []) ∧
    ((discardHand ⟨[], []⟩ [mkCard "Hearts" 2]).1.deck ++
        (discardHand ⟨[], []⟩ [mkCard "Hearts" 2]).1.discard ++
        (discardHand ⟨[], []⟩ [mkCard "Hearts" 2]).2).Perm
      (([] : List Card) ++ [] ++ [mkCard "Hearts" 2]) ∧
    ((shuffleInDiscards id ⟨[mkCard "Hearts" 2], [mkCard "Spades" 3]⟩).deck ++
        (shuffleInDiscards id ⟨[mkCard "Hearts" 2], [mkCard "Spades" 3]⟩).discard).Perm
      ([mkCard "Hearts" 2] ++ [mkCard "Spades" 3]) := by
  have T := card_conservation id (fun l => List.Perm.refl l)
  exact ⟨T.2.1 ⟨[mkCard "Hearts" 2], [mkCard "Spades" 3]⟩ (mkCard "Hearts" 2)
      ⟨[], [mkCard "Spades" 3]⟩ (by decide),
    T.2.2.1 ⟨[mkCard "Hearts" 2], []⟩ [] ⟨[], []⟩ [mkCard "Hearts" 2] (by decide),
    T.2.2.2.1 ⟨[], []⟩ [mkCard "Hearts" 2],
    T.2.2.2.2 ⟨[mkCard "Hearts" 2], [mkCard "Spades" 3]⟩⟩

/-- C5: dealing every card of a full 52-card draw pile into the
discard pile and then calling `shuffle_in_discards` moves every
discarded card back into the draw pile and clears the discard pile,
restoring a 52-card draw pile and an empty discard pile. -/
theorem recycle_round_trip (sh : List Card → List Card) (hsh : ∀ l, (sh l).Perm l)
    (cd : CardDeck) (hfull : cd.deck.length = 52) (hdis : cd.discard = []) :
    (shuffleInDiscards sh (dealAllToDiscard cd)).deck.length = 52 ∧
    (shuffleInDiscards sh (dealAllToDiscard cd)).discard = [] ∧
    ((shuffleInDiscards sh (dealAllToDiscard cd)).deck).Perm
      ((dealAllToDiscard cd).discard) := by
  obtain ⟨hdeck, hperm⟩ := dealAllToDiscard_spec cd.deck.length cd (le_refl _)
  have hlen : (dealAllToDiscard cd).discard.length = 52 := by
    have h1 := hperm.length_eq
    rw [hdis] at h1
    simp only [List.nil_append] at h1
    rw [h1, hfull]
  unfold shuffleInDiscards shuffleDeck
  dsimp only
  rw [hdeck]
  refine ⟨?_, rfl, ?_⟩
  · rw [(hsh ([] ++ (dealAllToDiscard cd).discard)).length_eq]
    simp only [List.nil_append]
    exact hlen
  · have h2 := hsh ([] ++ (dealAllToDiscard cd).discard)
    simpa using h2

/-- Witness for C5: the round trip on the freshly built standard deck,
with the identity shuffle. -/
theorem recycle_round_trip_witness :
    (shuffleInDiscards id (dealAllToDiscard (createUnshuffledDeck emptyDeck))).deck.length
        = 52 ∧
    (shuffleInDiscards id (dealAllToDiscard (createUnshuffledDeck emptyDeck))).discard
        = [] :=
  ⟨(recycle_round_trip id (fun l => List.Perm.refl l) (createUnshuffledDeck emptyDeck)
      (by decide) rfl).1,
   (recycle_round_trip id (fun l => List.Perm.refl l) (createUnshuffledDeck emptyDeck)
      (by decide) rfl).2.1⟩

/-- C6 (amended): `hit` deals exactly one card from the draw pile into
the hand when the draw pile is non-empty; when the draw pile is empty
and the discard pile is non-empty it recycles the discards into a
fresh shuffled draw pile and deals one card from it; when both piles
are empty the deal fails with the empty-sequence pop error. -/
theorem hit_deals_one_card (sh : List Card → List Card) (hsh : ∀ l, (sh l).Perm l)
    (cd : CardDeck) (hand : List Card) :
    (∀ hne : cd.deck ≠ [],
        hit sh cd hand =
          some ({ deck := cd.deck.dropLast, discard := cd.discard },
            hand ++ [cd.deck.getLast hne])) ∧
    (cd.deck = [] → cd.discard ≠ [] →
        ∃ c cd', hit sh cd hand = some (cd', hand ++ [c]) ∧ cd'.discard = [] ∧
          (c :: cd'.deck).Perm cd.discard) := by
  constructor
  · intro hne
    exact hit_nonempty sh cd hand hne
  · intro hd hdis
    rw [hit_empty_recycles sh cd hand hd]
    rcases hq : dealCard { deck := sh cd.discard, discard := [] } with _ | ⟨c, cdm⟩
    · exfalso
      have hnil : sh cd.discard = [] := by
        have := (dealCard_none_iff _).mp hq
        dsimp only at this
        exact this
      have hlen := (hsh cd.discard).length_eq
      rw [hnil] at hlen
      rcases hdd : cd.discard with _ | ⟨b, u⟩
      · exact hdis hdd
      · rw [hdd] at hlen
        simp at hlen
    · obtain ⟨hdeck, hdism⟩ := dealCard_some _ _ _ hq
      dsimp only at hdeck hdism
      refine ⟨c, cdm, rfl, hdism, ?_⟩
      have hp := hsh cd.discard
      rw [hdeck] at hp
      exact (List.perm_append_singleton c cdm.deck).symm.trans hp

/-- Counterexample to C6 as stated: with the draw and discard piles
both empty, `hit` deals no card at all, returning the empty-sequence
pop error (`none`) instead. -/
theorem hit_all_empty_deals_nothing :
    hit id emptyDeck [mkCard "Spades" 2] = none := by decide

/-- Witness for C6 (amended): both branches at concrete deck states,
with the identity shuffle. -/
theorem hit_deals_one_card_witness :
    hit id ⟨[mkCard "Hearts" 2], [mkCard "Spades" 3]⟩ [] =
      some ({ deck := ([mkCard "Hearts" 2] : List Card).dropLast,
              discard := [mkCard "Spades" 3] },
        [] ++ [([mkCard "Hearts" 2] : List Card).getLast (by decide)]) ∧
    (∃ c cd', hit id ⟨[], [mkCard "Spades" 3]⟩ [] = some (cd', [] ++ [c]) ∧
        cd'.discard = [] ∧ (c :: cd'.deck).Perm [mkCard "Spades" 3]) :=
  ⟨(hit_deals_one_card id (fun l => List.Perm.refl l)
      ⟨[mkCard "Hearts" 2], [mkCard "Spades" 3]⟩ []).1 (by decide),
   (hit_deals_one_card id (fun l => List.Perm.refl l)
      ⟨[], [mkCard "Spades" 3]⟩ []).2 rfl (by decide)⟩

/-- C7: issuing `no` while a hand is in progress does not terminate:
it prints the one-hand warning and sets `quitting`; issuing `no` again
immediately afterwards terminates and prints both scores, and issuing
`no` with the round over also terminates and prints both scores. -/
theorem quit_confirmation (g : GameState) (hp : g.playing = true)
    (hq : g.quitting = false) :
    (doNo g).2.1 = false ∧
    (doNo g).1.quitting = true ∧
    (doNo g).2.2 = ["¿Que? Just one hand"] ∧
    (doNo (doNo g).1).2.1 = true ∧
    (doNo (doNo g).1).2.2 =
      ["Dealer score: ", toString g.s1, "Player score: ", toString g.s2] ∧
    (∀ g2 : GameState, g2.playing = false →
      (doNo g2).2.1 = true ∧
      (doNo g2).2.2 =
        ["Dealer score: ", toString g2.s1, "Player score: ", toString g2.s2]) := by
  refine ⟨?_, ?_, ?_, ?_, ?_, ?_⟩
  · simp [doNo, hp, hq]
  · simp [doNo, hp, hq]
  · simp [doNo, hp, hq]
  · simp [doNo, hp, hq]
  · simp [doNo, hp, hq]
  · intro g2 hg2
    constructor
    · simp [doNo, hg2]
    · simp [doNo, hg2]

/-- Witness for C7: a state mid-hand with dealer score 2 and player
score 3; the first `no` does not terminate, the second does. -/
theorem quit_confirmation_witness :
    (doNo ⟨emptyDeck, [], [], 2, 3, true, false⟩).2.1 = false ∧
    (doNo (doNo ⟨emptyDeck, [], [], 2, 3, true, false⟩).1).2.1 = true :=
  ⟨(quit_confirmation ⟨emptyDeck, [], [], 2, 3, true, false⟩ rfl rfl).1,
   (quit_confirmation ⟨emptyDeck, [], [], 2, 3, true, false⟩ rfl rfl).2.2.2.1⟩

/-- C10: no command handler ever decreases a score, and a single
command raises the combined score by at most 1 (`do_stand`,
`do_yes`-aliases and the `quit`/`exit`/`EOF` family delegate to
`do_pass`, `do_yes` and `do_no` respectively). -/
theorem scores_never_decrease :
    (∀ (sh : List Card → List Card) (g g' : GameState), doHit sh g = some g' →
        g.s1 ≤ g'.s1 ∧ g.s2 ≤ g'.s2 ∧ g'.s1 + g'.s2 ≤ g.s1 + g.s2 + 1) ∧
    (∀ g g' : GameState, doPass g = some g' →
        g.s1 ≤ g'.s1 ∧ g.s2 ≤ g'.s2 ∧ g'.s1 + g'.s2 ≤ g.s1 + g.s2 + 1) ∧
    (∀ (sh : List Card → List Card) (g g' : GameState), doYes sh g = some g' →
        g.s1 ≤ g'.s1 ∧ g.s2 ≤ g'.s2 ∧ g'.s1 + g'.s2 ≤ g.s1 + g.s2 + 1) ∧
    (∀ g : GameState, (doNo g).1.s1 = g.s1 ∧ (doNo g).1.s2 = g.s2) := by
  refine ⟨?_, ?_, ?_, ?_⟩
  · intro sh g g' h
    unfold doHit at h
    dsimp only at h
    by_cases hp : g.playing = true
    · rw [if_pos hp] at h
      rcases hh : hit sh g.cd g.h2 with _ | ⟨cd', h2'⟩
      · rw [hh] at h
        simp at h
      · rw [hh] at h
        dsimp only at h
        split_ifs at h with ht
        · simp only [Option.some.injEq] at h
          subst h
          dsimp only
          omega
        · simp only [Option.some.injEq] at h
          subst h
          dsimp only
          omega
    · rw [if_neg hp] at h
      simp only [Option.some.injEq] at h
      subst h
      dsimp only
      omega
  · intro g g' h
    obtain ⟨_, _, _, _, _, _, c1, c2, c3, c4, c5⟩ := doPass_some_spec g g' h
    by_cases hD : totalHand g'.h1 ≤ 21
    · by_cases hDP : totalHand g.h2 ≤ totalHand g'.h1
      · have := c3 hD hDP
        omega
      · by_cases hP : totalHand g.h2 ≤ 21
        · have := c4 hD (by omega) hP
          omega
        · have := c5 hD (by omega) (by omega)
          omega
    · by_cases hP : totalHand g.h2 ≤ 21
      · have := c2 (by omega) hP
        omega
      · have := c1 (by omega) (by omega)
        omega
  · intro sh g g' h
    unfold doYes at h
    dsimp only at h
    split_ifs at h with hp
    · simp only [Option.some.injEq] at h
      subst h
      dsimp only
      omega
    · obtain ⟨e1, e2⟩ := startGame_scores sh _ g' h
      dsimp only at e1 e2
      omega
  · intro g
    unfold doNo
    split_ifs <;> exact ⟨rfl, rfl⟩

/-- Witness for C10: the player hits the 2 of Hearts from a one-card
deck; no score moves, the combined score rises by 0 ≤ 1. -/
theorem scores_never_decrease_witness :
    (⟨⟨[mkCard "Hearts" 2], []⟩, [], [], 0, 0, true, false⟩ : GameState).s1 ≤
        (⟨⟨[], []⟩, [], [mkCard "Hearts" 2], 0, 0, true, false⟩ : GameState).s1 ∧
    (⟨⟨[mkCard "Hearts" 2], []⟩, [], [], 0, 0, true, false⟩ : GameState).s2 ≤
        (⟨⟨[], []⟩, [], [mkCard "Hearts" 2], 0, 0, true, false⟩ : GameState).s2 ∧
    (⟨⟨[], []⟩, [], [mkCard "Hearts" 2], 0, 0, true, false⟩ : GameState).s1 +
        (⟨⟨[], []⟩, [], [mkCard "Hearts" 2], 0, 0, true, false⟩ : GameState).s2 ≤
      (⟨⟨[mkCard "Hearts" 2], []⟩, [], [], 0, 0, true, false⟩ : GameState).s1 +
        (⟨⟨[mkCard "Hearts" 2], []⟩, [], [], 0, 0, true, false⟩ : GameState).s2 + 1 :=
  scores_never_decrease.1 id
    ⟨⟨[mkCard "Hearts" 2], []⟩, [], [], 0, 0, true, false⟩
    ⟨⟨[], []⟩, [], [mkCard "Hearts" 2], 0, 0, true, false⟩ (by decide)

end Purruyura
